import Mathlib

/-!
# Verification of the YOLO Flask web detection pipeline

A shallow embedding of the detection orchestration code in `src/detector.py`
(class `YOLODetector`): source classification (`_analyze_source`), the
`detect` entry point with its catch-all error handling, run-directory
allocation, model warm-up, the per-frame loop (`_process_detections`,
`_process_single_detection`), the video-writer state machine
(`_save_results`) and the final statistics line (`_print_results`).

Pure string inspection is embedded directly over `String` / `List Char`.
Stateful parts (the per-stream video-writer arrays, the accumulated side
effects on the filesystem) are embedded as explicit state passing: each run
produces a trace of `Event`s (directory creation, image writes, encoder
open/release/write) and a list of `LogMsg`s, and Python exceptions are
embedded as `Except PyErr`.

Functions of the vendored detection library (`utils.general`,
`utils.dataloaders`) that `detector.py` calls but whose sources are not part
of this repository (`non_max_suppression`, `scale_boxes`, `increment_path`,
the `IMG_FORMATS` / `VID_FORMATS` extension sets) are modelled from the
specification and marked as such in their doc comments.
-/

/-! ## Python string primitives used by `_analyze_source` -/

/-- `str.isnumeric()` restricted to ASCII digit strings: true iff the string
is non-empty and all characters are digits. -/
def pyIsNumeric (s : String) : Bool :=
  !s.data.isEmpty && s.data.all Char.isDigit

/-- `str.lower()`. -/
def pyLower (s : String) : String :=
  ⟨s.data.map Char.toLower⟩

/-- `str.startswith(pre)`. -/
def pyStartsWith (s pre : String) : Bool :=
  pre.data.isPrefixOf s.data

/-- `str.endswith(suf)`. -/
def pyEndsWith (s suf : String) : Bool :=
  suf.data.isSuffixOf s.data

/-- The final path component: the characters after the last `/`. -/
def lastComponent (cs : List Char) : List Char :=
  cs.foldl (fun acc c => if c = '/' then [] else acc ++ [c]) []

/-- `Path(s).suffix[1:]`: the extension of the final path component without
the leading dot; empty when the final component has no dot, starts with its
only dot (hidden file) or ends with the dot, mirroring `pathlib`'s rule
`0 < name.rfind of dot < len name - 1`. -/
def pySuffixNoDot (s : String) : String :=
  let name := lastComponent s.data
  let rev := name.reverse
  let ext := rev.takeWhile (fun c => c ≠ '.')
  if ext.length < rev.length ∧ ext ≠ [] ∧ rev.drop (ext.length + 1) ≠ [] then
    ⟨ext.reverse⟩
  else
    ""

/-! ## Source classification (`YOLODetector._analyze_source`) -/

/-- Modelled from the spec: the known image extension set of the vendored
dataloaders (`utils.dataloaders.IMG_FORMATS`, not under `src/`). -/
def IMG_FORMATS : List String :=
  ["bmp", "dng", "jpeg", "jpg", "mpo", "png", "tif", "tiff", "webp", "pfm"]

/-- Modelled from the spec: the known video extension set of the vendored
dataloaders (`utils.dataloaders.VID_FORMATS`, not under `src/`). -/
def VID_FORMATS : List String :=
  ["asf", "avi", "gif", "m4v", "mkv", "mov", "mp4", "mpeg", "mpg", "ts", "wmv"]

/-- The dictionary returned by `_analyze_source`. -/
structure SourceInfo where
  valid : Bool
  is_file : Bool
  is_url : Bool
  webcam : Bool
  screenshot : Bool
deriving DecidableEq

/-- `YOLODetector._analyze_source` (detector.py lines 101-114). -/
def analyzeSource (source : String) : SourceInfo :=
  let isFile := (IMG_FORMATS ++ VID_FORMATS).contains (pySuffixNoDot source)
  let isUrl := pyStartsWith (pyLower source) "rtsp://" ||
    pyStartsWith (pyLower source) "rtmp://" ||
    pyStartsWith (pyLower source) "http://" ||
    pyStartsWith (pyLower source) "https://"
  let webcam := pyIsNumeric source || pyEndsWith source ".streams" || (isUrl && !isFile)
  let screenshot := pyStartsWith (pyLower source) "screen"
  { valid := isFile || isUrl || webcam || screenshot
    is_file := isFile
    is_url := isUrl
    webcam := webcam
    screenshot := screenshot }

/-! ## Run-directory allocation (`increment_path(save_dir / 'exp', exist_ok=False)`) -/

/-- A run-directory name under the results root: `exp` or `exp{n}` with a
numeric suffix `n ≥ 2`, embedded structurally so that distinctness of
suffixes is distinctness of names. -/
inductive RunName where
  | exp : RunName
  | expN : Nat → RunName
deriving DecidableEq

/-- The candidate names `exp, exp2, exp3, ...` tried in order: `exp` first,
then `k` numeric suffixes starting at 2. -/
def expCandidates (k : Nat) : List RunName :=
  RunName.exp :: (List.range k).map (fun n => RunName.expN (n + 2))

/-- Modelled from the spec: `increment_path(path, exist_ok=False)` of the
vendored `utils.general` (not under `src/`) returns `path` itself if it does
not exist, else the first `path{n}` (monotonically incrementing `n` from 2)
that does not exist. `fs` is the list of names already present under the
results root; trying `fs.length + 1` suffixes guarantees a free name. -/
def incrementPath (fs : List RunName) : RunName :=
  ((expCandidates (fs.length + 1)).find? (fun c => decide (c ∉ fs))).getD RunName.exp

theorem expCandidates_nodup (k : Nat) : (expCandidates k).Nodup := by
  unfold expCandidates
  refine List.Nodup.cons ?_ ?_
  · intro hmem
    rcases List.mem_map.mp hmem with ⟨n, _, hn⟩
    cases hn
  · refine List.Nodup.map ?_ (List.nodup_range k)
    intro a b hab
    have := RunName.expN.inj hab
    omega

theorem expCandidates_length (k : Nat) : (expCandidates k).length = k + 1 := by
  simp [expCandidates]

/-- The allocated run directory is always fresh: it is not among the names
already present under the results root. -/
theorem incrementPath_not_mem (fs : List RunName) : incrementPath fs ∉ fs := by
  unfold incrementPath
  cases h : (expCandidates (fs.length + 1)).find? (fun c => decide (c ∉ fs)) with
  | some c =>
    have hc := List.find?_some h
    simpa using hc
  | none =>
    exfalso
    have hall : ∀ c ∈ expCandidates (fs.length + 1), c ∈ fs := by
      intro c hc
      have := List.find?_eq_none.mp h c hc
      simpa using this
    have hsub : (expCandidates (fs.length + 1)).toFinset ⊆ fs.toFinset := by
      intro c hc
      rw [List.mem_toFinset] at hc ⊢
      exact hall c hc
    have hcard := Finset.card_le_card hsub
    rw [List.toFinset_card_of_nodup (expCandidates_nodup _)] at hcard
    have hle : fs.toFinset.card ≤ fs.length := fs.toFinset_card_le
    have hlen := expCandidates_length (fs.length + 1)
    omega

/-! ## The detection pipeline state model

`detect` / `_run_detection` / `_process_detections` / `_save_results` /
`_print_results` (detector.py lines 64-249), with the collaborators the
claims do not inspect (tensor preprocessing, inference, NMS output,
annotation) abstracted away and every filesystem / encoder side effect
recorded in an explicit event trace. -/

/-- Python exceptions that the embedded code can raise. -/
inductive PyErr where
  | zeroDivision : PyErr
  | indexError : PyErr
  | attributeError : PyErr
  | decodeError : PyErr
deriving DecidableEq

/-- Side effects of one `detect` call: run-directory creation, the model
warm-up call with its dummy-batch shape, still-image writes, and the
per-stream encoder lifecycle (open / release / frame append), each encoder
identified by a fresh numeric id. -/
inductive Event where
  | mkdirRun : RunName → Event
  | warmup : Nat → Nat → Nat → Nat → Event
  | imwrite : RunName → String → Event
  | openWriter : Nat → Nat → Event
  | releaseWriter : Nat → Nat → Event
  | writeFrame : Nat → Nat → Event
deriving DecidableEq

/-- The diagnostics `detect` emits through the logger. -/
inductive LogMsg where
  | loadFailed : LogMsg
  | invalidSource : LogMsg
  | speedLine : LogMsg
  | detectError : LogMsg
deriving DecidableEq

/-- `dataset.mode` as consulted by `_save_results` and
`_process_single_detection`. -/
inductive Mode where
  | image : Mode
  | video : Mode
  | stream : Mode
deriving DecidableEq

/-- One item yielded by the dataset iterator, reduced to what the frame loop
consumes for persistence: the mode, the per-prediction-entry file names
(`Path(p).name`; one entry for image/video sources, one per camera for
streams), and whether decoding this item raises. -/
structure Frame where
  mode : Mode
  names : List String
  decodeError : Bool

/-- The mutable loop state of `_process_detections`: the `vid_path` and
`vid_writer` arrays (length `len(dataset)`, indexed by stream index), a
fresh-id counter for encoders, the event trace so far and the `seen` frame
counter. The arrays are embedded as total maps guarded by the Python
length `len`; an access beyond `len` is an `IndexError`. -/
structure LoopState where
  len : Nat
  vidPath : Nat → Option String
  vidWriter : Nat → Option Nat
  nextId : Nat
  trace : List Event
  seen : Nat

/-- `YOLODetector._save_results` (detector.py lines 223-243): image mode
writes the frame to its own file; video/stream mode opens a new encoder when
the computed save path for index `i` changes (releasing the previously open
one first) and appends the frame to the encoder currently open at `i`.
Writing through an index that never opened an encoder while the stored path
already matches would be Python's `None.write` (`AttributeError`);
out-of-range index access raises `IndexError`. -/
def saveResults (dir : RunName) (m : Mode) (name : String) (i : Nat)
    (st : LoopState) : Except PyErr LoopState :=
  if m = Mode.image then
    Except.ok { st with trace := st.trace ++ [Event.imwrite dir name] }
  else if i < st.len then
    if st.vidPath i ≠ some name then
      match st.vidWriter i with
      | some oldId =>
        Except.ok { st with
          vidPath := fun j => if j = i then some name else st.vidPath j
          vidWriter := fun j => if j = i then some st.nextId else st.vidWriter j
          nextId := st.nextId + 1
          trace := st.trace ++ [Event.releaseWriter i oldId,
            Event.openWriter i st.nextId, Event.writeFrame i st.nextId] }
      | none =>
        Except.ok { st with
          vidPath := fun j => if j = i then some name else st.vidPath j
          vidWriter := fun j => if j = i then some st.nextId else st.vidWriter j
          nextId := st.nextId + 1
          trace := st.trace ++ [Event.openWriter i st.nextId,
            Event.writeFrame i st.nextId] }
    else
      match st.vidWriter i with
      | some id => Except.ok { st with trace := st.trace ++ [Event.writeFrame i id] }
      | none => Except.error PyErr.attributeError
  else
    Except.error PyErr.indexError

/-- The `for i, det in enumerate(pred)` loop of `_process_single_detection`
(detector.py lines 187-221), restricted to its persistence effect: one
`_save_results` call per prediction entry. On a raised exception the state
reached so far is returned together with the error. -/
def saveLoop (dir : RunName) (m : Mode) :
    List String → Nat → LoopState → LoopState × Option PyErr
  | [], _, st => (st, none)
  | n :: ns, i, st =>
    match saveResults dir m n i st with
    | Except.ok st' => saveLoop dir m ns (i + 1) st'
    | Except.error e => (st, some e)

/-- The frame loop of `_process_detections` (detector.py lines 153-179):
per dataset item, process the predictions and increment `seen`; a decode
error raised by the iterator propagates out of the loop. -/
def runFrames (dir : RunName) : List Frame → LoopState → LoopState × Option PyErr
  | [], st => (st, none)
  | f :: rest, st =>
    if f.decodeError then
      (st, some PyErr.decodeError)
    else
      match saveLoop dir f.mode f.names 0 st with
      | (st', none) => runFrames dir rest { st' with seen := st'.seen + 1 }
      | (st', some e) => (st', some e)

/-- The initial loop state: `vid_path, vid_writer = [None] * len(dataset)`,
no events, `seen = 0`. -/
def initState (dsLen : Nat) : LoopState :=
  { len := dsLen
    vidPath := fun _ => none
    vidWriter := fun _ => none
    nextId := 0
    trace := []
    seen := 0 }

/-- `_process_detections` followed by `_print_results` (detector.py lines
148-182 and 245-249): run the frame loop, then compute the mean per-frame
times `x.t / seen`, which raises `ZeroDivisionError` when the loop saw zero
frames. -/
def processDetections (dir : RunName) (frames : List Frame) (dsLen : Nat) :
    LoopState × Option PyErr :=
  match runFrames dir frames (initState dsLen) with
  | (st, some e) => (st, some e)
  | (st, none) => if st.seen = 0 then (st, some PyErr.zeroDivision) else (st, none)

/-- The environment of one `detect` call: the detector's lazy-load state and
the outcome the backend would give (`self.model is None` / `load_model()`),
the source string, the run-directory names already present under the results
root, and the dataset the frame-decode collaborator yields (`len(dataset)`,
backend flags `pt` / `triton`, the inference resolution, and the frames). -/
structure DetectEnv where
  modelLoaded : Bool
  loadSucceeds : Bool
  source : String
  fs : List RunName
  datasetLen : Nat
  imgszH : Nat
  imgszW : Nat
  pt : Bool
  triton : Bool
  frames : List Frame

/-- What a `detect` call surfaces: its return value (the run directory on
success, `None` on any failure), the side-effect trace and the logged
diagnostics. -/
structure DetectOut where
  result : Option RunName
  events : List Event
  logs : List LogMsg

/-- The body of `detect` inside its `try` block together with
`_run_detection` (detector.py lines 76-95 and 116-136): lazy model load
(returning `None` with a diagnostic on failure), source analysis (returning
`None` with a diagnostic when invalid), run-directory allocation, warm-up
with batch size `1 if pt or triton else (len(dataset) if webcam else 1)`,
then the frame loop; an exception escaping the loop or the statistics line
is returned as `Except.error` together with the effects already performed. -/
def detectAux (env : DetectEnv) :
    Except PyErr (Option RunName) × List Event × List LogMsg :=
  if !env.modelLoaded && !env.loadSucceeds then
    (Except.ok none, [], [LogMsg.loadFailed])
  else
    let info := analyzeSource env.source
    if !info.valid then
      (Except.ok none, [], [LogMsg.invalidSource])
    else
      let d := incrementPath env.fs
      let bs := if info.webcam then env.datasetLen else 1
      let wb := if env.pt || env.triton then 1 else bs
      match processDetections d env.frames env.datasetLen with
      | (st, some e) =>
        (Except.error e,
          Event.mkdirRun d :: Event.warmup wb 3 env.imgszH env.imgszW :: st.trace, [])
      | (st, none) =>
        (Except.ok (some d),
          Event.mkdirRun d :: Event.warmup wb 3 env.imgszH env.imgszW :: st.trace,
          [LogMsg.speedLine])

/-- `YOLODetector.detect` (detector.py lines 64-99): the whole body is
wrapped in `try ... except Exception`, so any exception raised inside is
logged and turned into a `None` return; side effects already performed
persist. -/
def detect (env : DetectEnv) : DetectOut :=
  match detectAux env with
  | (Except.error _, evs, logs) =>
    { result := none, events := evs, logs := logs ++ [LogMsg.detectError] }
  | (Except.ok r, evs, logs) =>
    { result := r, events := evs, logs := logs }

/-- The still-image files written during a run, as (directory, name) pairs. -/
def filesWritten (evs : List Event) : List (RunName × String) :=
  evs.filterMap (fun e =>
    match e with
    | Event.imwrite d n => some (d, n)
    | _ => none)

/-! ## The encoder-handle accounting on the event trace

`netOpen tr i` is the number of encoders opened minus the number released at
stream index `i` in the trace `tr`; `WellNested tr` says that along every
prefix of the trace at most one encoder is open per index — the state-machine
invariant of `_save_results`. -/

/-- Contribution of one event to the open-encoder count of stream index `i`. -/
def wdelta (i : Nat) : Event → ℤ
  | Event.openWriter j _ => if j = i then 1 else 0
  | Event.releaseWriter j _ => if j = i then -1 else 0
  | _ => 0

/-- Net number of encoders currently open at stream index `i` after the
events of `tr`. -/
def netOpen (tr : List Event) (i : Nat) : ℤ :=
  (tr.map (wdelta i)).sum

/-- Along every prefix of the trace, at most one encoder is open per stream
index; in particular a second encoder for an index is only opened after the
previous one was released. -/
def WellNested (tr : List Event) : Prop :=
  ∀ n i, netOpen (tr.take n) i ≤ 1

theorem netOpen_nil (i : Nat) : netOpen [] i = 0 := rfl

theorem netOpen_cons (e : Event) (tr : List Event) (i : Nat) :
    netOpen (e :: tr) i = wdelta i e + netOpen tr i := by
  simp [netOpen]

theorem netOpen_append (l₁ l₂ : List Event) (i : Nat) :
    netOpen (l₁ ++ l₂) i = netOpen l₁ i + netOpen l₂ i := by
  simp [netOpen]

theorem wellNested_nil : WellNested [] := by
  intro n i
  simp [netOpen]

theorem wellNested_append (l₁ l₂ : List Event) (h1 : WellNested l₁)
    (h2 : ∀ n i, netOpen l₁ i + netOpen (l₂.take n) i ≤ 1) :
    WellNested (l₁ ++ l₂) := by
  intro n i
  rw [List.take_append_eq_append_take, netOpen_append]
  by_cases hn : n ≤ l₁.length
  · have hz : n - l₁.length = 0 := Nat.sub_eq_zero_of_le hn
    rw [hz]
    simpa [netOpen] using h1 n i
  · rw [List.take_of_length_le (Nat.le_of_lt (Nat.lt_of_not_le hn))]
    exact h2 (n - l₁.length) i

theorem wellNested_cons_zero (e : Event) (tr : List Event)
    (he : ∀ i, wdelta i e = 0) (h : WellNested tr) : WellNested (e :: tr) := by
  intro n i
  cases n with
  | zero => simp [netOpen]
  | succ n =>
    rw [List.take_succ_cons, netOpen_cons, he i]
    simpa using h n i

/-- Indicator of an occupied writer slot. -/
def slotInd (w : Option Nat) : ℤ :=
  match w with
  | some _ => 1
  | none => 0

theorem slotInd_nonneg (w : Option Nat) : 0 ≤ slotInd w := by
  cases w <;> simp [slotInd]

theorem slotInd_le_one (w : Option Nat) : slotInd w ≤ 1 := by
  cases w <;> simp [slotInd]

/-- The loop-state invariant of `_process_detections`: the trace's net open
count at every index equals the occupancy of the `vid_writer` slot, and the
trace is well nested. -/
def StInv (st : LoopState) : Prop :=
  (∀ i, netOpen st.trace i = slotInd (st.vidWriter i)) ∧ WellNested st.trace

theorem initState_inv (dsLen : Nat) : StInv (initState dsLen) := by
  constructor
  · intro i
    simp [initState, netOpen, slotInd]
  · intro n i
    simp [initState, netOpen]

theorem saveResults_inv (dir : RunName) (m : Mode) (name : String) (i : Nat)
    (st st' : LoopState) (h : StInv st)
    (hok : saveResults dir m name i st = Except.ok st') : StInv st' := by
  obtain ⟨hcorr, hwn⟩ := h
  unfold saveResults at hok
  split at hok
  · -- image mode: one imwrite event, no writer state touched
    injection hok with hok
    subst hok
    refine ⟨?_, ?_⟩
    · intro j
      rw [netOpen_append]
      have hz : netOpen [Event.imwrite dir name] j = 0 := by
        simp [netOpen, wdelta]
      rw [hz, add_zero]
      exact hcorr j
    · apply wellNested_append _ _ hwn
      intro n j
      have hz : netOpen ([Event.imwrite dir name].take n) j = 0 := by
        rcases n with _ | n <;> simp [netOpen, wdelta]
      rw [hz, add_zero, hcorr j]
      exact slotInd_le_one _
  · split at hok
    · -- in-range stream index
      split at hok
      · -- the computed save path for index i changed
        split at hok
        · -- a writer was open at i: release it, then open a fresh one
          next oldId hw =>
          injection hok with hok
          subst hok
          have h1 : netOpen st.trace i = 1 := by rw [hcorr i, hw]; rfl
          refine ⟨?_, ?_⟩
          · intro j
            rw [netOpen_append]
            by_cases hj : j = i
            · subst hj
              rw [h1]
              simp [netOpen, wdelta, slotInd]
            · have hz : netOpen [Event.releaseWriter i oldId,
                  Event.openWriter i st.nextId, Event.writeFrame i st.nextId] j = 0 := by
                simp [netOpen, wdelta, Ne.symm hj]
              rw [hz, add_zero]
              simpa [hj] using hcorr j
          · apply wellNested_append _ _ hwn
            intro n j
            by_cases hj : j = i
            · subst hj
              rw [h1]
              rcases n with _ | _ | _ | n <;> simp [netOpen, wdelta]
            · have hz : netOpen ([Event.releaseWriter i oldId,
                  Event.openWriter i st.nextId, Event.writeFrame i st.nextId].take n) j = 0 := by
                rcases n with _ | _ | _ | n <;> simp [netOpen, wdelta, Ne.symm hj]
              rw [hz, add_zero, hcorr j]
              exact slotInd_le_one _
        · -- no writer yet at i: open the first one
          next hw =>
          injection hok with hok
          subst hok
          have h0 : netOpen st.trace i = 0 := by rw [hcorr i, hw]; rfl
          refine ⟨?_, ?_⟩
          · intro j
            rw [netOpen_append]
            by_cases hj : j = i
            · subst hj
              rw [h0]
              simp [netOpen, wdelta, slotInd]
            · have hz : netOpen [Event.openWriter i st.nextId,
                  Event.writeFrame i st.nextId] j = 0 := by
                simp [netOpen, wdelta, Ne.symm hj]
              rw [hz, add_zero]
              simpa [hj] using hcorr j
          · apply wellNested_append _ _ hwn
            intro n j
            by_cases hj : j = i
            · subst hj
              rw [h0]
              rcases n with _ | _ | _ | n <;> simp [netOpen, wdelta]
            · have hz : netOpen ([Event.openWriter i st.nextId,
                  Event.writeFrame i st.nextId].take n) j = 0 := by
                rcases n with _ | _ | _ | n <;> simp [netOpen, wdelta, Ne.symm hj]
              rw [hz, add_zero, hcorr j]
              exact slotInd_le_one _
      · -- same save path: append through the open writer
        split at hok
        · next id hw =>
          injection hok with hok
          subst hok
          refine ⟨?_, ?_⟩
          · intro j
            rw [netOpen_append]
            have hz : netOpen [Event.writeFrame i id] j = 0 := by
              simp [netOpen, wdelta]
            rw [hz, add_zero]
            exact hcorr j
          · apply wellNested_append _ _ hwn
            intro n j
            have hz : netOpen ([Event.writeFrame i id].take n) j = 0 := by
              rcases n with _ | n <;> simp [netOpen, wdelta]
            rw [hz, add_zero, hcorr j]
            exact slotInd_le_one _
        · exact absurd hok (by simp)
    · exact absurd hok (by simp)

theorem saveLoop_inv (dir : RunName) (m : Mode) (names : List String) :
    ∀ (i : Nat) (st : LoopState), StInv st → StInv (saveLoop dir m names i st).1 := by
  induction names with
  | nil =>
    intro i st h
    simpa [saveLoop] using h
  | cons n ns ih =>
    intro i st h
    unfold saveLoop
    cases hr : saveResults dir m n i st with
    | ok st' =>
      simpa [hr] using ih (i + 1) st' (saveResults_inv dir m n i st st' h hr)
    | error e =>
      simpa [hr] using h

theorem runFrames_inv (dir : RunName) (frames : List Frame) :
    ∀ st : LoopState, StInv st → StInv (runFrames dir frames st).1 := by
  induction frames with
  | nil =>
    intro st h
    simpa [runFrames] using h
  | cons f rest ih =>
    intro st h
    unfold runFrames
    by_cases hd : f.decodeError = true
    · simpa [hd] using h
    · rcases hs : saveLoop dir f.mode f.names 0 st with ⟨st', err⟩
      have hst' : StInv st' := by
        have hinv := saveLoop_inv dir f.mode f.names 0 st h
        rw [hs] at hinv
        exact hinv
      cases err with
      | none =>
        simpa [hd, hs] using ih { st' with seen := st'.seen + 1 } ⟨hst'.1, hst'.2⟩
      | some e =>
        simpa [hd, hs] using hst'

theorem processDetections_inv (dir : RunName) (frames : List Frame) (dsLen : Nat) :
    StInv (processDetections dir frames dsLen).1 := by
  unfold processDetections
  rcases hr : runFrames dir frames (initState dsLen) with ⟨st, err⟩
  have hst : StInv st := by
    have hinv := runFrames_inv dir frames (initState dsLen) (initState_inv dsLen)
    rw [hr] at hinv
    exact hinv
  cases err with
  | none =>
    by_cases hs : st.seen = 0 <;> simpa [hs] using hst
  | some e =>
    simpa using hst

theorem detect_events_eq (env : DetectEnv) :
    (detect env).events = (detectAux env).2.1 := by
  unfold detect
  rcases h : detectAux env with ⟨r, evs, logs⟩
  cases r <;> simp

theorem detectAux_events_wellNested (env : DetectEnv) :
    WellNested (detectAux env).2.1 := by
  unfold detectAux
  by_cases h1 : (!env.modelLoaded && !env.loadSucceeds) = true
  · simpa [h1] using wellNested_nil
  · by_cases h2 : (analyzeSource env.source).valid = true
    · rcases hp : processDetections (incrementPath env.fs) env.frames env.datasetLen
        with ⟨st, err⟩
      have hst : StInv st := by
        have hinv := processDetections_inv (incrementPath env.fs) env.frames env.datasetLen
        rw [hp] at hinv
        exact hinv
      have hwd1 : ∀ i, wdelta i (Event.mkdirRun (incrementPath env.fs)) = 0 := by
        intro i; simp [wdelta]
      have hwd2 : ∀ b c hh w i, wdelta i (Event.warmup b c hh w) = 0 := by
        intro b c hh w i; simp [wdelta]
      cases err with
      | none =>
        simp only [h1, h2, hp, Bool.not_true, Bool.false_and, Bool.and_false,
          if_false, Bool.not_false, if_true]
        simp [h1, h2, hp]
        exact wellNested_cons_zero _ _ hwd1
          (wellNested_cons_zero _ _ (hwd2 _ _ _ _) hst.2)
      | some e =>
        simp [h1, h2, hp]
        exact wellNested_cons_zero _ _ hwd1
          (wellNested_cons_zero _ _ (hwd2 _ _ _ _) hst.2)
    · have h2' : (analyzeSource env.source).valid = false := by
        revert h2
        cases (analyzeSource env.source).valid <;> simp
      simpa [h1, h2'] using wellNested_nil

/-! ## Concrete environments used by witnesses and counterexamples -/

/-- A one-frame video run: the dataset yields one decodable frame of the
video `a.mp4`. -/
def vidEnv : DetectEnv :=
  { modelLoaded := true, loadSucceeds := true, source := "a.mp4", fs := [],
    datasetLen := 1, imgszH := 640, imgszW := 640, pt := true, triton := false,
    frames := [{ mode := Mode.video, names := ["a.mp4"], decodeError := false }] }

/-- A video source that opens but yields zero decodable frames. -/
def emptyFramesEnv : DetectEnv :=
  { modelLoaded := true, loadSucceeds := true, source := "empty_frames.mp4", fs := [],
    datasetLen := 1, imgszH := 640, imgszW := 640, pt := true, triton := false,
    frames := [] }

/-- An invalid source: `.txt` matches no known modality. -/
def invalidEnv : DetectEnv :=
  { modelLoaded := true, loadSucceeds := true, source := "notes.txt", fs := [],
    datasetLen := 1, imgszH := 640, imgszW := 640, pt := true, triton := false,
    frames := [] }

/-- A valid image source hitting a model that fails to load. -/
def loadFailEnv : DetectEnv :=
  { modelLoaded := false, loadSucceeds := false, source := "cat.jpg", fs := [],
    datasetLen := 1, imgszH := 640, imgszW := 640, pt := true, triton := false,
    frames := [{ mode := Mode.image, names := ["cat.jpg"], decodeError := false }] }

/-- A single image run against a given results root. -/
def imageEnv (fs : List RunName) (name : String) : DetectEnv :=
  { modelLoaded := true, loadSucceeds := true, source := name, fs := fs,
    datasetLen := 1, imgszH := 640, imgszW := 640, pt := true, triton := false,
    frames := [{ mode := Mode.image, names := [name], decodeError := false }] }

/-- A two-camera webcam source on a PyTorch (`pt = true`) backend. -/
def webcamPtEnv : DetectEnv :=
  { modelLoaded := true, loadSucceeds := true, source := "0", fs := [],
    datasetLen := 2, imgszH := 640, imgszW := 640, pt := true, triton := false,
    frames := [{ mode := Mode.stream, names := ["0", "1"], decodeError := false }] }

/-- A two-camera webcam source on a backend that is neither `pt` nor
`triton`. -/
def webcamNoPtEnv : DetectEnv :=
  { modelLoaded := true, loadSucceeds := true, source := "0", fs := [],
    datasetLen := 2, imgszH := 640, imgszW := 640, pt := false, triton := false,
    frames := [{ mode := Mode.stream, names := ["0", "1"], decodeError := false }] }

/-! ## Claim C1 -/

/-- C1: for a video source that yields zero decodable frames, the run
directory is created and no file is ever written into it, but
`_print_results` divides the accumulated times by `seen = 0`, raising
`ZeroDivisionError`; `detect`'s catch-all handler turns this into a `None`
return. The call therefore reports failure instead of returning the (empty)
run directory, contradicting the claimed empty-result success. -/
theorem empty_video_run_fails :
    (detectAux emptyFramesEnv).1 = Except.error PyErr.zeroDivision ∧
    ((detect emptyFramesEnv).result = none ∧
      Event.mkdirRun RunName.exp ∈ (detect emptyFramesEnv).events ∧
      filesWritten (detect emptyFramesEnv).events = [] ∧
      LogMsg.detectError ∈ (detect emptyFramesEnv).logs) :=
  ⟨by rfl, by decide⟩

/-! ## Claim C2 -/

/-- C2 counterexample: a one-frame video run ends its frame loop with the
encoder opened at stream index 0 still open — the trace contains its
`openWriter` event and no `releaseWriter` event, so the open count at loop
end is 1, refuting the claim that every encoder still open when the frame
loop ends is flushed/closed at loop end. -/
theorem writer_left_open_at_loop_end :
    (detect vidEnv).events = [Event.mkdirRun RunName.exp, Event.warmup 1 3 640 640,
      Event.openWriter 0 0, Event.writeFrame 0 0] ∧
    netOpen (detect vidEnv).events 0 = 1 := by decide

/-- C2 (amended): for every stream index, the video-writer state machine
holds at most one open encoder handle at any time — along every prefix of
the side-effect trace of a `detect` call the net open count per index is at
most 1, so a path change releases the previously open encoder before a new
one is opened; encoders still open when the frame loop ends, however, are
left open (the loop performs no final release). -/
theorem writer_single_open_invariant (env : DetectEnv) :
    WellNested (detect env).events := by
  rw [detect_events_eq]
  exact detectAux_events_wellNested env

/-! ## Claim C3 -/

/-- C3: for every source that classifies as invalid, `detect` returns `None`
and performs no filesystem side effect: the validity check precedes the
run-directory allocation, so no directory and no file is created. -/
theorem invalid_source_no_side_effects (env : DetectEnv)
    (h : (analyzeSource env.source).valid = false) :
    (detect env).result = none ∧ (detect env).events = [] := by
  by_cases h1 : (!env.modelLoaded && !env.loadSucceeds) = true
  · simp [detect, detectAux, h1]
  · simp [detect, detectAux, h1, h]

/-- C3 witness: the `.txt` source is invalid, and `detect` returns `None`
with an empty side-effect trace. -/
theorem invalid_source_no_side_effects_witness :
    (analyzeSource "notes.txt").valid = false ∧
    ((detect invalidEnv).result = none ∧ (detect invalidEnv).events = []) :=
  ⟨by decide, invalid_source_no_side_effects invalidEnv (by decide)⟩

/-! ## Claim C4 -/

/-- C4 counterexample: a model-load failure on a valid source and a failure
caused by an invalid user source surface identically to the caller — both
`detect` calls return `None` — so at the call interface a model-load failure
is not distinguishable from a failure caused by the user's input. -/
theorem load_failure_not_distinct :
    (analyzeSource loadFailEnv.source).valid = true ∧
    (analyzeSource invalidEnv.source).valid = false ∧
    (detect loadFailEnv).result = none ∧
    (detect invalidEnv).result = none ∧
    (detect loadFailEnv).result = (detect invalidEnv).result := by decide

/-- C4 (amended): a model-load failure during a `detect` call is fatal for
that call — `detect` performs no side effect and returns `None` — but the
`None` it returns is identical to the one returned for input-caused
failures; the failure kinds are distinguished only in the logged diagnostic
(`loadFailed`), not in anything surfaced to the caller. -/
theorem load_failure_fatal (env : DetectEnv)
    (h1 : env.modelLoaded = false) (h2 : env.loadSucceeds = false) :
    (detect env).result = none ∧ (detect env).events = [] ∧
    (detect env).logs = [LogMsg.loadFailed] := by
  simp [detect, detectAux, h1, h2]

/-- C4 witness: the load-failure environment satisfies the hypotheses and
the amended conclusion. -/
theorem load_failure_fatal_witness :
    loadFailEnv.modelLoaded = false ∧ loadFailEnv.loadSucceeds = false ∧
    ((detect loadFailEnv).result = none ∧ (detect loadFailEnv).events = [] ∧
      (detect loadFailEnv).logs = [LogMsg.loadFailed]) :=
  ⟨by decide, by decide, load_failure_fatal loadFailEnv (by decide) (by decide)⟩

/-! ## Claim C9 -/

/-- C9: every purely numeric source string is classified as webcam and
valid, whatever characters (in particular, no extension suffix can occur in
a numeric string) it contains. -/
theorem numeric_source_is_webcam (s : String) (h : pyIsNumeric s = true) :
    (analyzeSource s).webcam = true ∧ (analyzeSource s).valid = true := by
  simp [analyzeSource, h]

/-- C9 witness: the classic webcam index `"0"`. -/
theorem numeric_source_is_webcam_witness :
    pyIsNumeric "0" = true ∧
    ((analyzeSource "0").webcam = true ∧ (analyzeSource "0").valid = true) :=
  ⟨by decide, numeric_source_is_webcam "0" (by decide)⟩

/-! ## Claim C10 -/

/-- C10: `detect` never propagates an exception: whenever its body raises
(model-load, decode, write or statistics errors alike), the catch-all
handler returns `None` instead. -/
theorem detect_swallows_exceptions (env : DetectEnv) (e : PyErr)
    (h : (detectAux env).1 = Except.error e) :
    (detect env).result = none := by
  unfold detect
  rcases hx : detectAux env with ⟨r, evs, logs⟩
  rw [hx] at h
  simp only at h
  subst h
  simp

/-- C10 witness: the zero-frame video run raises `ZeroDivisionError`
internally, and `detect` returns `None` rather than propagating it. -/
theorem detect_swallows_exceptions_witness :
    (detectAux emptyFramesEnv).1 = Except.error PyErr.zeroDivision ∧
    (detect emptyFramesEnv).result = none :=
  ⟨by rfl, detect_swallows_exceptions emptyFramesEnv PyErr.zeroDivision (by rfl)⟩

/-! ## Claim C6 -/

/-- Full evaluation of a single-image `detect` run: the run directory is the
freshly allocated name, and exactly one result file (the annotated image) is
written into it. -/
theorem detect_image_run (fs : List RunName) (name : String)
    (hv : (analyzeSource name).valid = true) :
    detect (imageEnv fs name) =
      { result := some (incrementPath fs)
        events := [Event.mkdirRun (incrementPath fs), Event.warmup 1 3 640 640,
          Event.imwrite (incrementPath fs) name]
        logs := [LogMsg.speedLine] } := by
  simp [detect, detectAux, imageEnv, hv, processDetections, runFrames, saveLoop,
    saveResults, initState]

/-- C6: two successive `detect` calls against the same valid image source
and the same results root (the second call seeing the first call's run
directory on disk) return two distinct run directories, each containing
exactly one result file, and the two written files do not collide. -/
theorem detect_twice_distinct_dirs (fs : List RunName) (name : String)
    (hv : (analyzeSource name).valid = true) :
    ∃ d₁ d₂ : RunName,
      (detect (imageEnv fs name)).result = some d₁ ∧
      (detect (imageEnv (d₁ :: fs) name)).result = some d₂ ∧
      d₁ ≠ d₂ ∧
      filesWritten (detect (imageEnv fs name)).events = [(d₁, name)] ∧
      filesWritten (detect (imageEnv (d₁ :: fs) name)).events = [(d₂, name)] ∧
      (d₁, name) ≠ (d₂, name) := by
  have hne : incrementPath fs ≠ incrementPath (incrementPath fs :: fs) := by
    intro hEq
    have hmem := incrementPath_not_mem (incrementPath fs :: fs)
    rw [← hEq] at hmem
    exact hmem (List.mem_cons_self _ _)
  refine ⟨incrementPath fs, incrementPath (incrementPath fs :: fs),
    ?_, ?_, hne, ?_, ?_, ?_⟩
  · rw [detect_image_run fs name hv]
  · rw [detect_image_run _ name hv]
  · rw [detect_image_run fs name hv]
    simp [filesWritten]
  · rw [detect_image_run _ name hv]
    simp [filesWritten]
  · intro hEq
    exact hne (congrArg Prod.fst hEq)

/-- C6 witness: two runs against the image `cat.jpg` starting from an empty
results root. -/
theorem detect_twice_distinct_dirs_witness :
    (analyzeSource "cat.jpg").valid = true ∧
    (∃ d₁ d₂ : RunName,
      (detect (imageEnv [] "cat.jpg")).result = some d₁ ∧
      (detect (imageEnv (d₁ :: []) "cat.jpg")).result = some d₂ ∧
      d₁ ≠ d₂ ∧
      filesWritten (detect (imageEnv [] "cat.jpg")).events = [(d₁, "cat.jpg")] ∧
      filesWritten (detect (imageEnv (d₁ :: []) "cat.jpg")).events = [(d₂, "cat.jpg")] ∧
      (d₁, "cat.jpg") ≠ (d₂, "cat.jpg")) :=
  ⟨by decide, detect_twice_distinct_dirs [] "cat.jpg" (by decide)⟩

/-! ## Claim C7 -/

/-- Any source classified as webcam is valid. -/
theorem webcam_valid (s : String) (h : (analyzeSource s).webcam = true) :
    (analyzeSource s).valid = true := by
  simp [analyzeSource] at h ⊢
  tauto

/-- C7 counterexample: for a webcam source with stream count 2 on a PyTorch
(`pt`) backend the warm-up dummy batch has batch-size 1, not the stream
count: the code passes `1 if pt or self.model.triton else bs` to `warmup`. -/
theorem warmup_batch_not_stream_count :
    (analyzeSource webcamPtEnv.source).webcam = true ∧
    webcamPtEnv.datasetLen = 2 ∧
    Event.warmup 1 3 640 640 ∈ (detect webcamPtEnv).events ∧
    Event.warmup 2 3 640 640 ∉ (detect webcamPtEnv).events := by decide

/-- C7 (amended): before the frame loop the inference engine is warmed up
with a dummy batch of shape (batch-size, 3, height, width) where the
batch-size equals the dataset's stream count for webcam sources only when
the backend is neither `pt` nor `triton`; when `pt` or `triton` is set the
batch-size is always 1. -/
theorem warmup_batch_stream_count (env : DetectEnv)
    (hm : env.modelLoaded = true) (hp : env.pt = false) (ht : env.triton = false)
    (hw : (analyzeSource env.source).webcam = true) :
    Event.warmup env.datasetLen 3 env.imgszH env.imgszW ∈ (detect env).events := by
  have hv := webcam_valid env.source hw
  rw [detect_events_eq]
  unfold detectAux
  rcases hp2 : processDetections (incrementPath env.fs) env.frames env.datasetLen
    with ⟨st, err⟩
  cases err <;> simp [hm, hp, ht, hw, hv, hp2]

/-- C7 witness: a two-stream webcam run on a backend with `pt` and `triton`
both unset warms up with batch-size 2. -/
theorem warmup_batch_stream_count_witness :
    webcamNoPtEnv.modelLoaded = true ∧ webcamNoPtEnv.pt = false ∧
    webcamNoPtEnv.triton = false ∧
    (analyzeSource webcamNoPtEnv.source).webcam = true ∧
    Event.warmup webcamNoPtEnv.datasetLen 3 webcamNoPtEnv.imgszH webcamNoPtEnv.imgszW ∈
      (detect webcamNoPtEnv).events :=
  ⟨by decide, by decide, by decide, by decide,
    warmup_batch_stream_count webcamNoPtEnv (by decide) (by decide) (by decide) (by decide)⟩

/-! ## Claim C5 — suppression (`non_max_suppression`)

`detector.py` lines 168-172 call `non_max_suppression(pred, conf_thres,
iou_thres, classes, agnostic_nms, max_det)` of the vendored `utils.general`,
which is not part of this repository; the suppression algorithm below is
modelled from the specification. -/

/-- An axis-aligned box (x1, y1, x2, y2) in inference-tensor coordinates. -/
structure Box where
  x1 : ℚ
  y1 : ℚ
  x2 : ℚ
  y2 : ℚ
deriving DecidableEq

/-- One raw candidate detection: box, confidence and class index. -/
structure RawPred where
  box : Box
  conf : ℚ
  cls : ℕ
deriving DecidableEq

/-- Area of a box, zero for degenerate boxes. -/
def boxArea (a : Box) : ℚ :=
  max 0 (a.x2 - a.x1) * max 0 (a.y2 - a.y1)

/-- Area of the intersection of two boxes. -/
def interArea (a b : Box) : ℚ :=
  max 0 (min a.x2 b.x2 - max a.x1 b.x1) * max 0 (min a.y2 b.y2 - max a.y1 b.y1)

/-- Intersection over union of two boxes (zero when the union has zero
area). -/
def iou (a b : Box) : ℚ :=
  let inter := interArea a b
  let uni := boxArea a + boxArea b - inter
  if uni = 0 then 0 else inter / uni

/-- Insert a candidate into a list sorted by descending confidence. -/
def insertDesc (p : RawPred) : List RawPred → List RawPred
  | [] => [p]
  | q :: qs => if q.conf < p.conf then p :: q :: qs else q :: insertDesc p qs

/-- Sort candidates by descending confidence (highest-confidence boxes are
considered, and hence retained, preferentially). -/
def sortByConf : List RawPred → List RawPred
  | [] => []
  | p :: ps => insertDesc p (sortByConf ps)

/-- `q` does not suppress `p`: either they are of different classes (and
suppression is class-aware), or their IoU does not exceed the threshold. -/
def keepsWith (iouThres : ℚ) (agnostic : Bool) (p q : RawPred) : Bool :=
  if agnostic || decide (q.cls = p.cls) then decide (iou q.box p.box ≤ iouThres)
  else true

/-- Greedy suppression pass over confidence-sorted candidates: a candidate
survives iff no higher-confidence survivor of the same class (any class if
agnostic) overlaps it beyond the IoU threshold. -/
def nmsKeep (iouThres : ℚ) (agnostic : Bool) :
    List RawPred → List RawPred → List RawPred
  | [], kept => kept.reverse
  | p :: rest, kept =>
    if kept.all (keepsWith iouThres agnostic p) then
      nmsKeep iouThres agnostic rest (p :: kept)
    else
      nmsKeep iouThres agnostic rest kept

/-- Modelled from the spec: `non_max_suppression` of the vendored
`utils.general` (not under `src/`): drop candidates whose confidence is
below `confThres`, restrict to the class filter when one is given, suppress
same-class (or any-class, if agnostic) overlaps beyond `iouThres` keeping
higher-confidence boxes preferentially, and cap the result at `maxDet`
entries. -/
def nonMaxSuppression (preds : List RawPred) (confThres iouThres : ℚ)
    (classes : Option (List ℕ)) (agnostic : Bool) (maxDet : ℕ) : List RawPred :=
  let cand := preds.filter (fun p => decide (confThres ≤ p.conf))
  let cand2 :=
    match classes with
    | some cs => cand.filter (fun p => cs.contains p.cls)
    | none => cand
  (nmsKeep iouThres agnostic (sortByConf cand2) []).take maxDet

theorem mem_insertDesc (p x : RawPred) (l : List RawPred)
    (h : x ∈ insertDesc p l) : x = p ∨ x ∈ l := by
  induction l with
  | nil => simpa [insertDesc] using h
  | cons q qs ih =>
    unfold insertDesc at h
    by_cases hc : q.conf < p.conf
    · rw [if_pos hc, List.mem_cons, List.mem_cons] at h
      rcases h with h | h | h
      · exact Or.inl h
      · exact Or.inr (by simp [h])
      · exact Or.inr (List.mem_cons_of_mem _ h)
    · rw [if_neg hc, List.mem_cons] at h
      rcases h with h | h
      · exact Or.inr (by simp [h])
      · rcases ih h with h2 | h2
        · exact Or.inl h2
        · exact Or.inr (List.mem_cons_of_mem _ h2)

theorem mem_sortByConf (x : RawPred) (l : List RawPred)
    (h : x ∈ sortByConf l) : x ∈ l := by
  induction l with
  | nil => simp [sortByConf] at h
  | cons p ps ih =>
    unfold sortByConf at h
    rcases mem_insertDesc p x (sortByConf ps) h with h2 | h2
    · simp [h2]
    · exact List.mem_cons_of_mem _ (ih h2)

theorem mem_nmsKeep (it : ℚ) (ag : Bool) (x : RawPred) :
    ∀ (l kept : List RawPred), x ∈ nmsKeep it ag l kept → x ∈ l ∨ x ∈ kept := by
  intro l
  induction l with
  | nil =>
    intro kept h
    right
    simpa [nmsKeep] using h
  | cons p rest ih =>
    intro kept h
    unfold nmsKeep at h
    by_cases hc : kept.all (keepsWith it ag p) = true
    · rw [if_pos hc] at h
      rcases ih (p :: kept) h with h2 | h2
      · exact Or.inl (List.mem_cons_of_mem _ h2)
      · rw [List.mem_cons] at h2
        rcases h2 with h3 | h3
        · exact Or.inl (by simp [h3])
        · exact Or.inr h3
    · rw [if_neg hc] at h
      rcases ih kept h with h2 | h2
      · exact Or.inl (List.mem_cons_of_mem _ h2)
      · exact Or.inr h2

/-- C5: for every raw-prediction list and every configuration, the result of
suppression has length at most `maxDet` and every surviving detection has
confidence at least `confThres`. -/
theorem nms_length_and_conf (preds : List RawPred) (confThres iouThres : ℚ)
    (classes : Option (List ℕ)) (agnostic : Bool) (maxDet : ℕ) :
    (nonMaxSuppression preds confThres iouThres classes agnostic maxDet).length ≤ maxDet ∧
    ∀ p ∈ nonMaxSuppression preds confThres iouThres classes agnostic maxDet,
      confThres ≤ p.conf := by
  constructor
  · exact List.length_take_le _ _
  · intro p hp
    simp only [nonMaxSuppression] at hp
    cases classes with
    | none =>
      have hp1 := List.mem_of_mem_take hp
      rcases mem_nmsKeep iouThres agnostic p _ [] hp1 with hp2 | hp2
      · have hp3 := mem_sortByConf p _ hp2
        have := (List.mem_filter.mp hp3).2
        simpa using this
      · simp at hp2
    | some cs =>
      have hp1 := List.mem_of_mem_take hp
      rcases mem_nmsKeep iouThres agnostic p _ [] hp1 with hp2 | hp2
      · have hp3 := mem_sortByConf p _ hp2
        have hp4 := (List.mem_filter.mp hp3).1
        have := (List.mem_filter.mp hp4).2
        simpa using this
      · simp at hp2

/-! ## Claim C8 — box rescaling (`scale_boxes` + `.round()`)

`detector.py` line 202 computes
`scale_boxes(im.shape[2:], det[:, :4], im0.shape).round()` with `scale_boxes`
from the vendored `utils.general`, which is not part of this repository; the
rescaling below is modelled from the specification: undo the letterbox
gain/padding, clip to the frame extents and round to integer pixel bounds. -/

/-- A frame shape (height, width). -/
structure Shape where
  h : ℚ
  w : ℚ
deriving DecidableEq

/-- Round-half-up to the nearest integer, written as an explicit floor so
that it evaluates on concrete rationals; it agrees with Mathlib's `round`. -/
def ratRound (x : ℚ) : ℤ :=
  ⌊x + 1 / 2⌋

theorem ratRound_eq_round (x : ℚ) : ratRound x = round x :=
  (round_eq x).symm

/-- Map one coordinate back: subtract the padding, divide by the gain, clip
to `[0, hi]` and round to an integer pixel bound. -/
def rescaleCoord (gain pad hi : ℚ) (x : ℚ) : ℚ :=
  ((ratRound (max 0 (min ((x - pad) / gain) hi)) : ℤ) : ℚ)

/-- Modelled from the spec: the box rescaling step of
`_process_single_detection` — `scale_boxes(from_shape, boxes, to_shape)`
followed by `.round()` — mapping boxes from the padded/resized inference
shape back to the original frame's pixel coordinates, with clipping to the
frame extents and rounding to integer pixel bounds. -/
def scaleBoxesRound (fromShape toShape : Shape) (b : Box) : Box :=
  let gain := min (fromShape.h / toShape.h) (fromShape.w / toShape.w)
  let padX := (fromShape.w - toShape.w * gain) / 2
  let padY := (fromShape.h - toShape.h * gain) / 2
  { x1 := rescaleCoord gain padX toShape.w b.x1
    y1 := rescaleCoord gain padY toShape.h b.y1
    x2 := rescaleCoord gain padX toShape.w b.x2
    y2 := rescaleCoord gain padY toShape.h b.y2 }

/-- The rescaling step applied to a box list. -/
def rescaleBoxes (fromShape toShape : Shape) (bs : List Box) : List Box :=
  bs.map (scaleBoxesRound fromShape toShape)

/-- C8 counterexample: rescaling from a shape to the identical shape does
not leave every box list unchanged — a box reaching outside the frame is
clipped to the frame extents (and fractional coordinates are rounded). -/
theorem rescale_same_shape_not_identity :
    rescaleBoxes { h := 4, w := 4 } { h := 4, w := 4 }
        [{ x1 := -1, y1 := 0, x2 := 2, y2 := 2 }] ≠
      [{ x1 := -1, y1 := 0, x2 := 2, y2 := 2 }] := by
  intro hEq
  have h1 : scaleBoxesRound { h := 4, w := 4 } { h := 4, w := 4 }
      { x1 := -1, y1 := 0, x2 := 2, y2 := 2 } =
      { x1 := -1, y1 := 0, x2 := 2, y2 := 2 } := by
    simpa [rescaleBoxes] using hEq
  have h2 := congrArg Box.x1 h1
  simp only [scaleBoxesRound, rescaleCoord, ratRound] at h2
  norm_num [min_def, max_def] at h2

theorem rescaleCoord_intCast (hi : ℚ) (n : ℤ) (h0 : 0 ≤ n) (h1 : (n : ℚ) ≤ hi) :
    rescaleCoord 1 0 hi (n : ℚ) = (n : ℚ) := by
  unfold rescaleCoord
  rw [sub_zero, div_one, min_eq_left h1,
    max_eq_right (by exact_mod_cast h0), ratRound_eq_round, round_intCast]

/-- C8 (amended): when the inference shape equals the original frame shape
(with positive extents), the rescaling step reduces to clipping and
rounding, so every box whose coordinates are already integral and inside
the frame extents is left unchanged; boxes with fractional or out-of-range
coordinates are altered by the rounding/clipping. -/
theorem rescale_same_shape_integral (s : Shape) (a b c d : ℤ)
    (hh : 0 < s.h) (hw : 0 < s.w)
    (ha0 : 0 ≤ a) (ha1 : (a : ℚ) ≤ s.w)
    (hb0 : 0 ≤ b) (hb1 : (b : ℚ) ≤ s.h)
    (hc0 : 0 ≤ c) (hc1 : (c : ℚ) ≤ s.w)
    (hd0 : 0 ≤ d) (hd1 : (d : ℚ) ≤ s.h) :
    scaleBoxesRound s s { x1 := (a : ℚ), y1 := (b : ℚ), x2 := (c : ℚ), y2 := (d : ℚ) } =
      { x1 := (a : ℚ), y1 := (b : ℚ), x2 := (c : ℚ), y2 := (d : ℚ) } := by
  have hg : min (s.h / s.h) (s.w / s.w) = 1 := by
    rw [div_self (ne_of_gt hh), div_self (ne_of_gt hw), min_self]
  have hpw : (s.w - s.w * 1) / 2 = 0 := by
    rw [mul_one, sub_self, zero_div]
  have hph : (s.h - s.h * 1) / 2 = 0 := by
    rw [mul_one, sub_self, zero_div]
  simp only [scaleBoxesRound, hg, hpw, hph]
  rw [rescaleCoord_intCast s.w a ha0 ha1, rescaleCoord_intCast s.h b hb0 hb1,
    rescaleCoord_intCast s.w c hc0 hc1, rescaleCoord_intCast s.h d hd0 hd1]

/-- C8 witness: the box (1,1,3,3) inside a 4×4 frame is unchanged by
same-shape rescaling. -/
theorem rescale_same_shape_integral_witness :
    (0 : ℚ) < 4 ∧ ((1 : ℤ) : ℚ) ≤ 4 ∧ ((3 : ℤ) : ℚ) ≤ 4 ∧
    scaleBoxesRound { h := 4, w := 4 } { h := 4, w := 4 }
        { x1 := ((1 : ℤ) : ℚ), y1 := ((1 : ℤ) : ℚ), x2 := ((3 : ℤ) : ℚ), y2 := ((3 : ℤ) : ℚ) } =
      { x1 := ((1 : ℤ) : ℚ), y1 := ((1 : ℤ) : ℚ), x2 := ((3 : ℤ) : ℚ), y2 := ((3 : ℤ) : ℚ) } :=
  ⟨by decide, by decide, by decide,
    rescale_same_shape_integral { h := 4, w := 4 } 1 1 3 3 (by decide) (by decide)
      (by decide) (by decide) (by decide) (by decide) (by decide) (by decide)
      (by decide) (by decide)⟩
